import Mathlib

/-!
Verification of the configuration / preset core of KyoceraScanSelector
(`KyoceraScanSelector.py`).

Shallow embedding conventions:
* Strings are modelled by their character sequences; the regex class `\d`
  is modelled as an ASCII digit (all inputs of interest are ASCII).
* INI files are modelled at the `configparser` abstraction level: a parsed
  file is a list of sections, each a list of (option, value) pairs, with
  option names already normalised (configparser lowercases option names on
  both read and write, so using one fixed spelling per option throughout is
  faithful), values stored as the stripped tokens the parser produces, and
  the `DEFAULT` section / `%`-interpolation features unused by the program
  left out.
* The file system is a state value: an association list from path to file
  entry (parsed data plus readability/writability), together with oracles
  for directory creation (`ensure_directory`), file creation and
  `os.access(..., W_OK)` answers, which the OS may answer independently.
* Python exceptions are modelled with `Except`; a Python function that
  catches every exception becomes a total Lean function.
-/

/-! ## Character and string utilities -/

/-- ASCII digit, the model of the regex class `\d`. -/
def isDig (c : Char) : Bool := decide (48 ≤ c.toNat ∧ c.toNat ≤ 57)

/-- Numeric value of an ASCII digit. -/
def digVal (c : Char) : Nat := c.toNat - 48

/-- Python `str.strip` whitespace set (ASCII part): space, `\t`, `\n`,
`\r`, `\x0b`, `\x0c`. -/
def isPyWs (c : Char) : Bool := decide (c.toNat = 32 ∨ (9 ≤ c.toNat ∧ c.toNat ≤ 13))

/-- Remove trailing whitespace characters. -/
def rstrip : List Char → List Char
  | [] => []
  | c :: t =>
    match rstrip t with
    | [] => if isPyWs c then [] else [c]
    | r => c :: r

/-- Model of Python `str.strip()`: remove leading and trailing whitespace. -/
def pyStrip (l : List Char) : List Char := rstrip (l.dropWhile isPyWs)

/-- `pyStrip` on `String`. -/
def pyStripS (s : String) : String := ⟨pyStrip s.data⟩

/-- Split a character list on `'.'`, Python `str.split('.')` style
(the empty list splits to one empty part). -/
def splitDots : List Char → List (List Char)
  | [] => [[]]
  | c :: rest =>
    if c = '.' then [] :: splitDots rest
    else
      match splitDots rest with
      | p :: ps => (c :: p) :: ps
      | [] => [[c]]

/-- Full match of one octet against the regex alternation
`25[0-5] | 2[0-4]\d | 1?\d?\d` (character codes: `'1'` = 49, `'2'` = 50,
`'0'` = 48, `'4'` = 52, `'5'` = 53). -/
def octetMatch : List Char → Bool
  | [c] => isDig c
  | [c, d] => isDig c && isDig d
  | [c, d, e] =>
    (decide (c.toNat = 50) && decide (d.toNat = 53) &&
       decide (48 ≤ e.toNat ∧ e.toNat ≤ 53)) ||
    (decide (c.toNat = 50) && decide (48 ≤ d.toNat ∧ d.toNat ≤ 52) && isDig e) ||
    (decide (c.toNat = 49) && isDig d && isDig e)
  | _ => false

/-- `is_valid_ip` from the source: strip the input, then match the anchored
regex `^(?:(?:25[0-5]|2[0-4]\d|1?\d?\d)\.){3}(?:25[0-5]|2[0-4]\d|1?\d?\d)$`.
Because the octet alternation never matches a `'.'` and never matches the
empty string, the anchored regex is equivalent to: splitting on `'.'` yields
exactly four parts, each a full octet match. -/
def is_valid_ip (ip : String) : Bool :=
  (splitDots (pyStrip ip.data)).length == 4 &&
    (splitDots (pyStrip ip.data)).all octetMatch

/-- Decimal value of a digit string. -/
def octetVal (l : List Char) : Nat := l.foldl (fun n c => 10 * n + digVal c) 0

/-- Modelled from the spec sentence of C3: the trimmed string consists of
exactly four dot-separated integers, each in the range 0 to 255, with no
extra characters (an "integer" being a nonempty string of digits, read in
decimal). -/
def specIsValidIp (s : String) : Bool :=
  (splitDots (pyStrip s.data)).length == 4 &&
    (splitDots (pyStrip s.data)).all
      (fun p => !p.isEmpty && p.all isDig && decide (octetVal p ≤ 255))

/-- The octet shape the source regex actually accepts: one to three ASCII
digits, decimal value at most 255, and a three-digit octet does not start
with `'0'`. -/
def octetOkB : List Char → Bool
  | [] => false
  | c :: rest =>
    (c :: rest).all isDig && decide ((c :: rest).length ≤ 3) &&
      decide (octetVal (c :: rest) ≤ 255) &&
      (decide ((c :: rest).length ≠ 3) || decide (c.toNat ≠ 48))

/-- The amended validity predicate for C3. -/
def amendedValidIp (s : String) : Bool :=
  (splitDots (pyStrip s.data)).length == 4 &&
    (splitDots (pyStrip s.data)).all octetOkB

/-! ## File-system and INI model -/

/-- A parsed INI file at the `configparser` abstraction level. -/
abbrev Sections := List (String × List (String × String))

/-- Contents of a file on disk, as seen through `configparser`: either it
parses to a list of sections, or parsing raises (`corrupt`), in which case
`leftover` holds the sections the parser had already added before raising
(configparser adds sections while scanning and raises at the end). -/
inductive FileData where
  | ini (secs : Sections)
  | corrupt (leftover : Sections)
deriving DecidableEq

/-- A file on disk: its parsed data and the OS answers for reading and
writing it (`os.access(path, W_OK)` and actual open-for-read success). -/
structure FileEntry where
  data : FileData
  readable : Bool
  writable : Bool
deriving DecidableEq

/-- The file-system state. `mkdirOk d` is the outcome of
`ensure_directory(d)` (directory created and its write-test succeeded);
`canCreate p` is whether opening a new file at `p` for writing succeeds;
`accessW d` is `os.access(d, os.W_OK)` for a directory, which the OS may
answer independently of actual write success. -/
structure FS where
  files : List (String × FileEntry)
  mkdirOk : String → Bool
  canCreate : String → Bool
  accessW : String → Bool

/-- Look up a path. -/
def lookupFile (fs : FS) (p : String) : Option FileEntry := fs.files.lookup p

/-- `os.path.isfile` / `os.path.exists` (directories-as-paths unused here). -/
def isfile (fs : FS) (p : String) : Bool := (lookupFile fs p).isSome

/-- The parsed data at a path, if any. -/
def dataAt (fs : FS) (p : String) : Option FileData := (lookupFile fs p).map (·.data)

/-- Replace or create the file at `p`. -/
def setFile (fs : FS) (p : String) (e : FileEntry) : FS :=
  { fs with
    files :=
      if (fs.files.lookup p).isSome then
        fs.files.map (fun q => if q.1 = p then (p, e) else q)
      else
        (p, e) :: fs.files }

/-- Path separator ('/' or '\'). -/
def isSep (c : Char) : Bool := decide (c = '/') || decide (c = '\\')

/-- Model of `os.path.dirname`: everything before the last path separator
(empty if there is none). -/
def dirname (p : String) : String :=
  let r := p.data.reverse.dropWhile (fun c => !isSep c)
  ⟨(r.drop 1).reverse⟩

/-- Model of `os.path.join` for the joins the program performs. -/
def joinPath (a b : String) : String :=
  if a = "" then b else a ++ "\\" ++ b

/-- `ensure_directory` from the source: `os.makedirs` plus a write test,
every failure caught and turned into `False`. The combined outcome is the
`mkdirOk` oracle. -/
def ensure_directory (fs : FS) (d : String) : Bool := fs.mkdirOk d

/-- `check_file_writable` from the source: `os.access(path, W_OK)` if the
file exists, otherwise `os.access(dirname(path) or ".", W_OK)`. -/
def check_file_writable (fs : FS) (p : String) : Bool :=
  match lookupFile fs p with
  | some e => e.writable
  | none =>
    let d := dirname p
    fs.accessW (if d = "" then "." else d)

/-! ## configparser reading and section merging -/

/-- Set one option in a section's option list (`configparser` semantics:
replace an existing option in place, otherwise append). -/
def setOpt (opts : List (String × String)) (k v : String) : List (String × String) :=
  if (opts.lookup k).isSome then
    opts.map (fun kv => if kv.1 = k then (k, v) else kv)
  else
    opts ++ [(k, v)]

/-- Merge one parsed section into a parser state (`configparser.read` on a
parser that may already hold sections: update an existing section's options,
otherwise append the section). -/
def mergeSection (cfg : Sections) (name : String) (opts : List (String × String)) : Sections :=
  if (cfg.lookup name).isSome then
    cfg.map (fun s => if s.1 = name then (name, opts.foldl (fun acc kv => setOpt acc kv.1 kv.2) s.2) else s)
  else
    cfg ++ [(name, opts)]

/-- Merge a whole parsed file into a parser state. -/
def mergeAll (cfg : Sections) (new : Sections) : Sections :=
  new.foldl (fun acc s => mergeSection acc s.1 s.2) cfg

/-- `ConfigParser.read(path)` applied to parser state `cfg`. Returns the new
parser state and whether the call returned normally. Faithful to CPython:
a missing file is skipped silently, and an `OSError` (including
`PermissionError`) while opening is caught inside `read` and skipped — only
parse errors escape, and even then the sections already scanned stay in the
parser. -/
def cfgRead (cfg : Sections) (fs : FS) (p : String) : Sections × Bool :=
  match lookupFile fs p with
  | none => (cfg, true)
  | some e =>
    if e.readable then
      match e.data with
      | .ini ss => (mergeAll cfg ss, true)
      | .corrupt ss => (mergeAll cfg ss, false)
    else
      (cfg, true)

/-- Option lookup through a parsed file: section, then option. -/
def optLookup (cfg : Sections) (sec k : String) : Option String :=
  (cfg.lookup sec).bind (fun opts => opts.lookup k)

/-! ## The embedded source functions -/

/-- Python exception kinds the embedded functions raise. -/
inductive PyErr where
  | permissionError
  | ioError
  | parsingError
deriving DecidableEq

/-- `read_scanner_ip` from the source: parse the file, return the stripped
`ScannerAddress` from `[Contents]`, and return `""` on a missing section or
key or on any exception. Total: every exception is caught. -/
def read_scanner_ip (fs : FS) (p : String) : String :=
  match cfgRead [] fs p with
  | (_, false) => ""
  | (cfg, true) =>
    match cfg.lookup "Contents" with
    | none => ""
    | some opts => pyStripS ((opts.lookup "ScannerAddress").getD "")

/-- Modelled from the spec's words for `readAddress` (C7): the stored
`ScannerAddress` value of a readable, parseable file, and the empty string
whenever the section or key is absent or any read or parse error occurs.
(The stored value of a config option is the token the parser produces,
which is whitespace-stripped.) -/
def readAddressSpec (fs : FS) (p : String) : String :=
  match lookupFile fs p with
  | some ⟨.ini ss, true, _⟩ =>
    match optLookup (mergeAll [] ss) "Contents" "ScannerAddress" with
    | some v => pyStripS v
    | none => ""
  | _ => ""

/-- `write_scanner_ip` from the source: check writability first (raising
`PermissionError` if the check fails), read the existing file (re-raising a
parse error), set `Contents/ScannerAddress`, and rewrite the whole file.
Opening a fresh file can still fail (`canCreate`), which the source maps to
a raised error. -/
def write_scanner_ip (fs : FS) (p ip : String) : Except PyErr FS :=
  if !check_file_writable fs p then
    .error .permissionError
  else
    match lookupFile fs p with
    | some e =>
      match cfgRead [] fs p with
      | (_, false) => .error .parsingError
      | (cfg, true) =>
        let cfg1 := if (cfg.lookup "Contents").isSome then cfg else cfg ++ [("Contents", [])]
        let cfg2 := cfg1.map (fun s => if s.1 = "Contents" then ("Contents", setOpt s.2 "ScannerAddress" ip) else s)
        .ok (setFile fs p ⟨.ini cfg2, e.readable, e.writable⟩)
    | none =>
      if fs.canCreate p then
        .ok (setFile fs p ⟨.ini [("Contents", [("ScannerAddress", ip)])], true, true⟩)
      else
        .error .permissionError

/-- `try_copy_remote_to_cache` from the source, with the globals
`LOCAL_CACHE_DIR` / `LOCAL_CACHE_FILE` passed as `cacheDir` / `cacheFile`.
Returns the boolean result and the (possibly updated) file system. The copy
(`shutil.copyfile`) opens the source first, so a source open failure leaves
the destination untouched; a successful copy duplicates the remote bytes,
keeping an existing destination's permission flags. -/
def try_copy_remote_to_cache (fs : FS) (cacheDir cacheFile remote : String) :
    Bool × FS :=
  if !isfile fs remote then (false, fs)
  else if !ensure_directory fs cacheDir then (false, fs)
  else if !check_file_writable fs cacheFile then (false, fs)
  else
    match lookupFile fs remote with
    | none => (false, fs)
    | some re =>
      if re.readable then
        match lookupFile fs cacheFile with
        | some ce => (true, setFile fs cacheFile ⟨re.data, ce.readable, ce.writable⟩)
        | none => (true, setFile fs cacheFile ⟨re.data, true, true⟩)
      else
        (false, fs)

/-- The fallback-and-parse phase of `load_presets`, before the per-section
validation loop: try the remote file (updating the cache on success), fall
back to the cache only when `used` stayed `None`. Mirrors the source
control flow, including that `configparser.read` swallows open errors (so
an unreadable remote still sets `used`) and that on a parse error the
sections scanned before the error stay in the parser. -/
def load_sections (fs : FS) (cacheDir cacheFile remote : String) : Sections × FS :=
  if isfile fs remote then
    match cfgRead [] fs remote with
    | (cfg, true) =>
      -- remote read returned: refresh the cache, set `used`, skip the fallback
      (cfg, (try_copy_remote_to_cache fs cacheDir cacheFile remote).2)
    | (cfg, false) =>
      -- parse error caught: `used` stays unset, fall back to the cache file
      (if isfile fs cacheFile then (cfgRead cfg fs cacheFile).1 else cfg, fs)
  else
    (if isfile fs cacheFile then (cfgRead [] fs cacheFile).1 else [], fs)

/-- The stripped `ScannerAddress` value of one section
(`cfg.get(section, "ScannerAddress", fallback="").strip()`). -/
def sectionIp (opts : List (String × String)) : String :=
  pyStripS ((opts.lookup "ScannerAddress").getD "")

/-- The per-section validation loop of `load_presets`: keep a section iff
its stripped address validates. -/
def parsePresets (cfg : Sections) : List (String × String) :=
  cfg.filterMap (fun s =>
    let ip := sectionIp s.2
    if is_valid_ip ip then some (s.1, ip) else none)

/-- `load_presets` from the source: load remote-or-cache, then filter
sections by address validity. Total: every exception is caught. -/
def load_presets (fs : FS) (cacheDir cacheFile remote : String) :
    List (String × String) × FS :=
  let (cfg, fs') := load_sections fs cacheDir cacheFile remote
  (parsePresets cfg, fs')

/-! ## Config-path resolution and the GUI-side operations -/

/-- The parsed form of the default config payload the source writes
(`[Contents]` with `Unit`, `Compression`, `CompressionGray`,
`ScannerAddress=192.168.1.1`, and `[Authentication]`). -/
def default_config_sections : Sections :=
  [("Contents",
     [("Unit", "0"), ("Compression", "0"), ("CompressionGray", "0"),
      ("ScannerAddress", "192.168.1.1")]),
   ("Authentication",
     [("Unit", "0"), ("UserName", ""), ("Password", "")])]

/-- Write the default config payload at `p`. -/
def writeDefault (fs : FS) (p : String) : FS :=
  setFile fs p ⟨.ini default_config_sections, true, true⟩

/-- `resolve_kyocera_path` from the source. Tier 1: an existing file at
`base` or `base + ".ini"`, else create `base` with the default payload
(needs a nonempty dirname, a successful `ensure_directory`, and a
successful create). Tier 2: an existing or freshly created
`fallbackPath` (the `ensure_directory` result is ignored there; a failed
create falls through). Tier 3: the same in the temp directory. If all
three tiers fail the source raises `RuntimeError`, modelled as `.error`. -/
def resolve_kyocera_path (fs : FS) (base fallbackDir fallbackPath tempDir : String) :
    Except Unit (String × FS) :=
  if isfile fs base then .ok (base, fs)
  else if isfile fs (base ++ ".ini") then .ok (base ++ ".ini", fs)
  else
    let d := dirname base
    if d ≠ "" && ensure_directory fs d && fs.canCreate base then
      .ok (base, writeDefault fs base)
    else
    -- tier 2 calls `ensure_directory(fallback_dir)` but ignores its result
    let _ := ensure_directory fs fallbackDir
    if isfile fs fallbackPath then .ok (fallbackPath, fs)
    else if fs.canCreate fallbackPath then .ok (fallbackPath, writeDefault fs fallbackPath)
    else
      let tempPath := joinPath tempDir "KyoceraScanSelector_KM_TWAIN.ini"
      if isfile fs tempPath then .ok (tempPath, fs)
      else if fs.canCreate tempPath then .ok (tempPath, writeDefault fs tempPath)
      else .error ()

/-- Does the character list `l` contain `pat` as a contiguous run? -/
def containsSub (pat : List Char) : List Char → Bool
  | [] => pat.isEmpty
  | c :: t => startsWithL pat (c :: t) || containsSub pat t
where
  /-- Does the second list start with the first? -/
  startsWithL : List Char → List Char → Bool
    | [], _ => true
    | _ :: _, [] => false
    | a :: as, b :: bs => decide (a = b) && startsWithL as bs

/-- The startup check `"TEMP" in path or "KyoceraScanSelector_KM_TWAIN" in
path` by which `KyoceraGUI.__init__` decides it is running in degraded
(emergency) mode. -/
def degraded_detect (p : String) : Bool :=
  containsSub "TEMP".data p.data ||
    containsSub "KyoceraScanSelector_KM_TWAIN".data p.data

/-- The configuration-path initialisation of `KyoceraGUI.__init__`: resolve
the path, detect degraded mode on success, and on a `RuntimeError` fall
back to the `":memory:"` marker with the critical-error flag set (the
process keeps running). Returns `(kyocera_ini_path, has_critical_errors)`. -/
def init_config_mode (fs : FS) (base fallbackDir fallbackPath tempDir : String) :
    String × Bool :=
  match resolve_kyocera_path fs base fallbackDir fallbackPath tempDir with
  | .ok (p, _) => (p, degraded_detect p)
  | .error _ => (":memory:", true)

/-- Outcome of `KyoceraGUI.save_ip`, as surfaced to the user. -/
inductive SaveResult where
  | invalidIp
  | readOnlyMode
  | saved
  | permError
  | ioErr
deriving DecidableEq

/-- `KyoceraGUI.save_ip` from the source: strip the entered address,
reject it with a user-visible warning if it fails `is_valid_ip`, refuse to
save in `":memory:"` (or empty-path) mode, otherwise call
`write_scanner_ip` and map its exceptions to user-visible errors. Returns
the surfaced outcome and the resulting file system. -/
def save_ip (fs : FS) (path ipRaw : String) : SaveResult × FS :=
  if !is_valid_ip (pyStripS ipRaw) then (.invalidIp, fs)
  else if path = "" || path = ":memory:" then (.readOnlyMode, fs)
  else
    match write_scanner_ip fs path (pyStripS ipRaw) with
    | .ok fs' => (.saved, fs')
    | .error .permissionError => (.permError, fs)
    | .error _ => (.ioErr, fs)

/-! ## The background watcher (`KyoceraGUI.watcher`) -/

/-- Errors `os.path.getmtime` can raise in one polling iteration. -/
inductive PollErr where
  | perm
  | os
  | other
deriving DecidableEq

/-- The environment one watcher iteration observes: the stop flag at the
top of the loop, the auto-refresh checkbox, and the stat result. -/
structure WatchIn where
  stop : Bool
  auto : Bool
  poll : Except PollErr Nat

/-- The watcher's mutable locals. -/
structure WatchState where
  last_ts : Nat
  consec : Nat
deriving DecidableEq

/-- One iteration body of `KyoceraGUI.watcher` (everything between two
sleeps): total — each `except` arm absorbs its error class and the loop
variables are simply updated. The returned flag records whether a reload
was scheduled on the main thread. -/
def watcher_step (s : WatchState) (i : WatchIn) : WatchState × Bool :=
  if i.auto then
    match i.poll with
    | .ok ts =>
      if ts ≠ s.last_ts then (⟨ts, 0⟩, true) else (⟨s.last_ts, 0⟩, false)
    | .error .perm =>
      let c := s.consec + 1
      (⟨s.last_ts, if 5 ≤ c then 0 else c⟩, false)
    | .error .os =>
      let c := s.consec + 1
      (⟨s.last_ts, if 5 ≤ c then 0 else c⟩, false)
    | .error .other => (s, false)
  else (s, false)

/-- The watcher loop over a finite trace of observed environments: check
the stop flag once per iteration, run the body, continue. Returns the
final state and the number of iterations whose body ran. -/
def watcher_run (s : WatchState) : List WatchIn → WatchState × Nat
  | [] => (s, 0)
  | i :: rest =>
    if i.stop then (s, 0)
    else
      let s' := (watcher_step s i).1
      let (s'', n) := watcher_run s' rest
      (s'', n + 1)

/-- The parsed sections stored at a path (empty if the path is missing or
its data is not a parseable INI file). -/
def iniSectionsAt (fs : FS) (p : String) : Sections :=
  match dataAt fs p with
  | some (.ini ss) => ss
  | _ => []

/-! ## Concrete file-system fixtures used by witnesses -/

/-- A remote preset file that exists but is not readable (permission
denied), next to a valid cached preset file. -/
def fsPermRemote : FS :=
  { files :=
      [("remote.ini", ⟨.ini [("A", [("ScannerAddress", "1.2.3.4")])], false, true⟩),
       ("cache.ini", ⟨.ini [("B", [("ScannerAddress", "5.6.7.8")])], true, true⟩)],
    mkdirOk := fun _ => true, canCreate := fun _ => true, accessW := fun _ => true }

/-- No remote preset file; a valid cached preset file. -/
def fsCacheOnly : FS :=
  { files :=
      [("cache.ini", ⟨.ini [("B", [("ScannerAddress", "5.6.7.8")])], true, true⟩)],
    mkdirOk := fun _ => true, canCreate := fun _ => true, accessW := fun _ => true }

/-- A readable remote preset file with one valid and one invalid entry. -/
def fsPresets : FS :=
  { files :=
      [("remote.ini",
         ⟨.ini [("A", [("ScannerAddress", "1.2.3.4")]),
                ("B", [("ScannerAddress", "999.1.1.1")])], true, true⟩)],
    mkdirOk := fun _ => true, canCreate := fun _ => true, accessW := fun _ => true }

/-- An existing, parseable, writable scanner configuration file with
unrelated keys. -/
def fsCfg : FS :=
  { files :=
      [("cfg.ini",
         ⟨.ini [("Contents", [("Unit", "0"), ("ScannerAddress", "1.1.1.1")]),
                ("Authentication", [("UserName", "bob")])], true, true⟩)],
    mkdirOk := fun _ => true, canCreate := fun _ => true, accessW := fun _ => true }

/-- An empty, fully permissive file system. -/
def fsEmpty : FS :=
  { files := [], mkdirOk := fun _ => true, canCreate := fun _ => true,
    accessW := fun _ => true }

/-- A file system where nothing exists and only the temp-directory config
file can be created. -/
def fsTempOnly : FS :=
  { files := [], mkdirOk := fun _ => false,
    canCreate := fun p => p == "T\\KyoceraScanSelector_KM_TWAIN.ini",
    accessW := fun _ => true }

/-- A file system where nothing exists and nothing can be created. -/
def fsNothing : FS :=
  { files := [], mkdirOk := fun _ => false, canCreate := fun _ => false,
    accessW := fun _ => false }

/-! ## Helper lemmas -/

theorem octetMatch_eq (l : List Char) : octetMatch l = octetOkB l := by
  match l with
  | [] => rfl
  | [c] =>
    simp only [octetMatch, octetOkB, octetVal, List.foldl, List.all, List.length,
      digVal, isDig, Bool.and_true, Bool.true_and]
    rw [Bool.eq_iff_iff]
    simp only [Bool.and_eq_true, Bool.or_eq_true, decide_eq_true_eq]
    omega
  | [c, d] =>
    simp only [octetMatch, octetOkB, octetVal, List.foldl, List.all, List.length,
      digVal, isDig, Bool.and_true, Bool.true_and]
    rw [Bool.eq_iff_iff]
    simp only [Bool.and_eq_true, Bool.or_eq_true, decide_eq_true_eq]
    omega
  | [c, d, e] =>
    simp only [octetMatch, octetOkB, octetVal, List.foldl, List.all, List.length,
      digVal, isDig, Bool.and_true, Bool.true_and]
    rw [Bool.eq_iff_iff]
    simp only [Bool.and_eq_true, Bool.or_eq_true, decide_eq_true_eq]
    omega
  | a :: b :: c :: d :: t =>
    have h3 : decide ((a :: b :: c :: d :: t).length ≤ 3) = false := by
      simp only [List.length_cons, decide_eq_false_iff_not]
      omega
    have hL : octetMatch (a :: b :: c :: d :: t) = false := rfl
    rw [hL]
    simp [octetOkB, h3]

theorem dropWhile_idem (p : Char → Bool) (l : List Char) :
    (l.dropWhile p).dropWhile p = l.dropWhile p := by
  induction l with
  | nil => rfl
  | cons c t ih =>
    by_cases h : p c <;> simp [List.dropWhile_cons, h, ih]

theorem dropWhile_cons_false (p : Char → Bool) (l : List Char) (c : Char)
    (t : List Char) (h : l.dropWhile p = c :: t) : p c = false := by
  induction l with
  | nil => simp [List.dropWhile] at h
  | cons a l ih =>
    by_cases ha : p a
    · exact ih (by simpa [List.dropWhile_cons, ha] using h)
    · simp only [List.dropWhile_cons, ha, if_false] at h
      cases h
      simpa using ha

theorem rstrip_shape (c : Char) (t : List Char) :
    rstrip (c :: t) = [] ∨ ∃ r, rstrip (c :: t) = c :: r := by
  cases h : rstrip t with
  | nil =>
    by_cases hc : isPyWs c
    · left; simp [rstrip, h, hc]
    · right; exact ⟨[], by simp [rstrip, h, hc]⟩
  | cons x xs =>
    right; exact ⟨x :: xs, by simp [rstrip, h]⟩

theorem rstrip_cons_eq (c : Char) (t : List Char) :
    rstrip (c :: t) =
      match rstrip t with
      | [] => if isPyWs c then [] else [c]
      | r => c :: r := rfl

theorem rstrip_idem (l : List Char) : rstrip (rstrip l) = rstrip l := by
  induction l with
  | nil => rfl
  | cons c t ih =>
    cases h : rstrip t with
    | nil =>
      by_cases hc : isPyWs c
      · simp [rstrip, h, hc]
      · simp [rstrip, h, hc]
    | cons x xs =>
      have h2 : rstrip (x :: xs) = x :: xs := by rw [← h, ih, h]
      rw [rstrip_cons_eq, h]
      show rstrip (c :: x :: xs) = c :: x :: xs
      rw [rstrip_cons_eq, h2]

theorem pyStrip_idem (l : List Char) : pyStrip (pyStrip l) = pyStrip l := by
  unfold pyStrip
  set m := l.dropWhile isPyWs with hm
  have hdw : (rstrip m).dropWhile isPyWs = rstrip m := by
    cases hm2 : m with
    | nil => simp [rstrip]
    | cons c t =>
      have hc : isPyWs c = false := dropWhile_cons_false isPyWs l c t (hm ▸ hm2)
      rcases rstrip_shape c t with h | ⟨r, h⟩
      · simp [h]
      · simp [h, List.dropWhile_cons, hc]
  rw [hdw, rstrip_idem]

theorem is_valid_ip_pyStripS (a : String) :
    is_valid_ip (pyStripS a) = is_valid_ip a := by
  have : (pyStripS a).data = pyStrip a.data := rfl
  simp only [is_valid_ip, this, pyStrip_idem]

/-! ### Association-list lemmas -/

theorem lookup_none_of_not_mem {β : Type} (l : List (String × β)) (n : String)
    (h : n ∉ l.map Prod.fst) : l.lookup n = none := by
  induction l with
  | nil => rfl
  | cons a t ih =>
    simp only [List.map_cons, List.mem_cons] at h
    push_neg at h
    have : (n == a.1) = false := by simpa using h.1
    simp [List.lookup, this, ih h.2]

theorem lookup_cons {β : Type} (a : String × β) (t : List (String × β)) (k : String) :
    (a :: t).lookup k = if k = a.1 then some a.2 else t.lookup k := by
  obtain ⟨a1, a2⟩ := a
  by_cases h : k = a1
  · subst h; simp [List.lookup]
  · have hb : (k == a1) = false := by simpa using h
    simp [List.lookup, hb, h]

theorem lookup_some_mem {β : Type} (l : List (String × β)) (n : String) (v : β)
    (h : l.lookup n = some v) : (n, v) ∈ l := by
  induction l with
  | nil => simp [List.lookup] at h
  | cons a t ih =>
    rw [lookup_cons] at h
    by_cases he : n = a.1
    · rw [if_pos he] at h
      have hv : a.2 = v := Option.some.inj h
      exact List.mem_cons.mpr (Or.inl (by rw [he, ← hv]))
    · rw [if_neg he] at h
      exact List.mem_cons.mpr (Or.inr (ih h))

theorem nodup_lookup_of_mem {β : Type} (l : List (String × β)) (n : String) (v : β)
    (hnd : (l.map Prod.fst).Nodup) (h : (n, v) ∈ l) : l.lookup n = some v := by
  induction l with
  | nil => simp at h
  | cons a t ih =>
    simp only [List.map_cons, List.nodup_cons] at hnd
    rcases List.mem_cons.mp h with he | ht
    · rw [← he]
      simp [List.lookup]
    · have hne : (n == a.1) = false := by
        have : n ∈ t.map Prod.fst := List.mem_map.mpr ⟨(n, v), ht, rfl⟩
        have : n ≠ a.1 := fun e => hnd.1 (e ▸ this)
        simpa using this
      simp only [List.lookup, hne]
      exact ih hnd.2 ht

theorem lookup_map_keyed {β : Type} (l : List (String × β)) (name : String) (g : β → β) :
    (l.map (fun s => if s.1 = name then (name, g s.2) else s)).lookup name =
      (l.lookup name).map g := by
  induction l with
  | nil => rfl
  | cons a t ih =>
    simp only [List.map_cons, lookup_cons]
    by_cases he : a.1 = name
    · rw [if_pos he]
      simp [he]
    · rw [if_neg he]
      have hn : ¬name = a.1 := fun hh => he hh.symm
      rw [if_neg hn, if_neg hn, ih]

theorem lookup_map_keyed_other {β : Type} (l : List (String × β)) (name k : String)
    (g : β → β) (h : k ≠ name) :
    (l.map (fun s => if s.1 = name then (name, g s.2) else s)).lookup k =
      l.lookup k := by
  induction l with
  | nil => rfl
  | cons a t ih =>
    simp only [List.map_cons, lookup_cons]
    by_cases he : a.1 = name
    · rw [if_pos he]
      have hk : ¬k = a.1 := fun hh => h (hh.trans he)
      simp [h, hk, ih]
    · rw [if_neg he]
      by_cases hk : k = a.1
      · rw [if_pos hk, if_pos hk]
      · rw [if_neg hk, if_neg hk, ih]

theorem lookup_append_right {β : Type} (l : List (String × β)) (k : String) (v : β)
    (h : l.lookup k = none) : (l ++ [(k, v)]).lookup k = some v := by
  induction l with
  | nil => simp [lookup_cons]
  | cons a t ih =>
    rw [lookup_cons] at h
    by_cases he : k = a.1
    · rw [if_pos he] at h
      exact absurd h (by simp)
    · rw [if_neg he] at h
      rw [List.cons_append, lookup_cons, if_neg he]
      exact ih h

theorem lookup_append_other {β : Type} (l : List (String × β)) (k k' : String) (v : β)
    (h : k' ≠ k) : (l ++ [(k, v)]).lookup k' = l.lookup k' := by
  induction l with
  | nil =>
    rw [List.nil_append, lookup_cons]
    simp [h]
  | cons a t ih =>
    rw [List.cons_append, lookup_cons, lookup_cons, ih]

theorem setOpt_lookup_self (opts : List (String × String)) (k v : String) :
    (setOpt opts k v).lookup k = some v := by
  unfold setOpt
  by_cases h : (opts.lookup k).isSome
  · rw [if_pos h, lookup_map_keyed opts k (fun _ => v)]
    obtain ⟨w, hw⟩ := Option.isSome_iff_exists.mp h
    simp [hw]
  · rw [if_neg h]
    exact lookup_append_right opts k v (Option.not_isSome_iff_eq_none.mp h)

theorem setOpt_lookup_other (opts : List (String × String)) (k k' v : String)
    (h : k' ≠ k) : (setOpt opts k v).lookup k' = opts.lookup k' := by
  unfold setOpt
  by_cases hp : (opts.lookup k).isSome
  · rw [if_pos hp, lookup_map_keyed_other opts k k' (fun _ => v) h]
  · rw [if_neg hp, lookup_append_other opts k k' v h]

theorem setFile_lookup_self (fs : FS) (p : String) (e : FileEntry) :
    lookupFile (setFile fs p e) p = some e := by
  unfold lookupFile setFile
  by_cases h : (fs.files.lookup p).isSome
  · simp only [h, if_pos]
    obtain ⟨w, hw⟩ := Option.isSome_iff_exists.mp h
    have := lookup_map_keyed (β := FileEntry) fs.files p (fun _ => e)
    simpa [hw] using this
  · simp [h, List.lookup]

theorem lookup_none_not_mem {β : Type} (l : List (String × β)) (n : String)
    (h : l.lookup n = none) : n ∉ l.map Prod.fst := by
  induction l with
  | nil => simp
  | cons a t ih =>
    rw [lookup_cons] at h
    by_cases he : n = a.1
    · rw [if_pos he] at h; exact absurd h (by simp)
    · rw [if_neg he] at h
      simp only [List.map_cons, List.mem_cons]
      push_neg
      exact ⟨he, ih h⟩

theorem mergeSection_names_nodup (cfg : Sections) (n : String)
    (o : List (String × String)) (hnd : (cfg.map Prod.fst).Nodup) :
    ((mergeSection cfg n o).map Prod.fst).Nodup := by
  unfold mergeSection
  by_cases h : (cfg.lookup n).isSome
  · rw [if_pos h]
    have hf : (Prod.fst ∘ fun s : String × List (String × String) =>
        if s.1 = n then (n, o.foldl (fun acc kv => setOpt acc kv.1 kv.2) s.2) else s) =
        Prod.fst := by
      funext s
      by_cases hh : s.1 = n <;> simp [hh]
    rw [List.map_map, hf]
    exact hnd
  · rw [if_neg h]
    have hn : n ∉ cfg.map Prod.fst :=
      lookup_none_not_mem cfg n (Option.not_isSome_iff_eq_none.mp h)
    simp only [List.map_append, List.map_cons, List.map_nil]
    simp [List.nodup_append, hnd, hn]

theorem mergeAll_names_nodup (ss : Sections) :
    ∀ cfg : Sections, (cfg.map Prod.fst).Nodup →
      ((mergeAll cfg ss).map Prod.fst).Nodup := by
  induction ss with
  | nil => intro cfg h; exact h
  | cons s t ih =>
    intro cfg h
    exact ih (mergeSection cfg s.1 s.2) (mergeSection_names_nodup cfg s.1 s.2 h)

theorem mergeAll_disjoint (ss : Sections) :
    ∀ cfg : Sections, (ss.map Prod.fst).Nodup →
      (∀ m ∈ ss.map Prod.fst, m ∉ cfg.map Prod.fst) →
      mergeAll cfg ss = cfg ++ ss := by
  induction ss with
  | nil => intro cfg _ _; simp [mergeAll]
  | cons s t ih =>
    intro cfg hnd hdisj
    obtain ⟨n, o⟩ := s
    simp only [List.map_cons, List.nodup_cons] at hnd
    have hn : n ∉ cfg.map Prod.fst := hdisj n (by simp)
    have hms : mergeSection cfg n o = cfg ++ [(n, o)] := by
      unfold mergeSection
      rw [if_neg (by rw [lookup_none_of_not_mem cfg n hn]; simp)]
    have step : mergeAll cfg ((n, o) :: t) = mergeAll (cfg ++ [(n, o)]) t := by
      simp only [mergeAll, List.foldl_cons]
      rw [hms]
    rw [step, ih (cfg ++ [(n, o)]) hnd.2]
    · simp
    · intro m hm
      simp only [List.map_append, List.map_cons, List.map_nil, List.mem_append,
        List.mem_cons]
      push_neg
      refine ⟨hdisj m (by simp [hm]), ?_, by simp⟩
      intro he
      exact hnd.1 (he ▸ hm)

theorem mergeAll_nil (ss : Sections) (hnd : (ss.map Prod.fst).Nodup) :
    mergeAll [] ss = ss := by
  rw [mergeAll_disjoint ss [] hnd (by simp)]
  simp

theorem cfgRead_names_nodup (cfg : Sections) (fs : FS) (p : String)
    (h : (cfg.map Prod.fst).Nodup) :
    (((cfgRead cfg fs p).1).map Prod.fst).Nodup := by
  unfold cfgRead
  cases lookupFile fs p with
  | none => exact h
  | some e =>
    by_cases hr : e.readable
    · cases hd : e.data with
      | ini ss => simpa [hr, hd] using mergeAll_names_nodup ss cfg h
      | corrupt ss => simpa [hr, hd] using mergeAll_names_nodup ss cfg h
    · simp only [Bool.not_eq_true] at hr
      simp [hr, h]

theorem load_sections_names_nodup (fs : FS) (cd cf r : String) :
    (((load_sections fs cd cf r).1).map Prod.fst).Nodup := by
  unfold load_sections
  by_cases hr : isfile fs r
  · rw [if_pos hr]
    cases hread : cfgRead [] fs r with
    | mk cfg ok =>
      have hcfg : (cfg.map Prod.fst).Nodup := by
        have h0 := cfgRead_names_nodup [] fs r (by simp)
        rw [hread] at h0
        exact h0
      cases ok with
      | true => simpa using hcfg
      | false =>
        by_cases hc : isfile fs cf
        · simpa [hc] using cfgRead_names_nodup cfg fs cf hcfg
        · simpa [hc] using hcfg
  · rw [if_neg hr]
    by_cases hc : isfile fs cf
    · simpa [hc] using cfgRead_names_nodup [] fs cf (by simp)
    · simp [hc]

theorem pyStripS_empty : pyStripS "" = "" := rfl

theorem nodup_mem_eq {β : Type} (l : List (String × β)) (n : String) (a b : β)
    (hnd : (l.map Prod.fst).Nodup) (ha : (n, a) ∈ l) (hb : (n, b) ∈ l) : a = b := by
  have h1 := nodup_lookup_of_mem l n a hnd ha
  have h2 := nodup_lookup_of_mem l n b hnd hb
  rw [h1] at h2
  exact Option.some.inj h2

theorem all_octet_eq (l : List (List Char)) : l.all octetMatch = l.all octetOkB := by
  induction l with
  | nil => rfl
  | cons p t ih => simp [List.all_cons, octetMatch_eq, ih]

theorem containsSub_append (pat xs ys : List Char) (h : containsSub pat ys = true) :
    containsSub pat (xs ++ ys) = true := by
  induction xs with
  | nil => simpa using h
  | cons c t ih =>
    simp [containsSub, List.append_eq, ih]

theorem string_data_append (a b : String) : (a ++ b).data = a.data ++ b.data := rfl

theorem degraded_detect_tempPath (tempDir : String) :
    degraded_detect (joinPath tempDir "KyoceraScanSelector_KM_TWAIN.ini") = true := by
  unfold degraded_detect joinPath
  by_cases h : tempDir = ""
  · rw [if_pos h]
    decide
  · rw [if_neg h]
    have hd : (tempDir ++ "\\" ++ "KyoceraScanSelector_KM_TWAIN.ini").data =
        tempDir.data ++ ("\\KyoceraScanSelector_KM_TWAIN.ini" : String).data := by
      rw [string_data_append, string_data_append, List.append_assoc]
      exact congrArg (fun l => tempDir.data ++ l) (by decide)
    rw [hd]
    have hB : containsSub "KyoceraScanSelector_KM_TWAIN".data
        (tempDir.data ++ ("\\KyoceraScanSelector_KM_TWAIN.ini" : String).data) = true :=
      containsSub_append _ _ _ (by decide)
    rw [hB, Bool.or_true]

theorem map_keyed_fst {β : Type} (l : List (String × β)) (name : String) (g : β → β) :
    (l.map (fun s => if s.1 = name then (name, g s.2) else s)).map Prod.fst =
      l.map Prod.fst := by
  rw [List.map_map]
  have hf : (Prod.fst ∘ fun s : String × β => if s.1 = name then (name, g s.2) else s) =
      Prod.fst := by
    funext s
    by_cases h : s.1 = name <;> simp [h]
  rw [hf]

theorem read_scanner_ip_ini_eq (fs : FS) (p : String) (ss : Sections)
    (h : lookupFile fs p = some ⟨.ini ss, true, true⟩) :
    read_scanner_ip fs p =
      (match (mergeAll [] ss).lookup "Contents" with
       | none => ""
       | some opts => pyStripS ((opts.lookup "ScannerAddress").getD "")) := by
  unfold read_scanner_ip cfgRead
  rw [h]
  rfl

/-! ## Claims -/

/-- C3 (counterexample): the claim "`is_valid_ip(s)` is true iff `s`
trimmed consists of exactly four dot-separated integers, each in 0..255,
with no extra characters" fails at `"001.2.3.4"`: its four dot-separated
parts are the integers 1, 2, 3, 4, all in range, yet `is_valid_ip` rejects
it (the regex octet `25[0-5]|2[0-4]\d|1?\d?\d` does not match a three-digit
octet starting with `'0'`). -/
theorem is_valid_ip_spec_counterexample :
    is_valid_ip "001.2.3.4" = false ∧ specIsValidIp "001.2.3.4" = true :=
  ⟨by decide, by decide⟩

/-- C3 (amended): `is_valid_ip s` is true iff `s` trimmed consists of
exactly four dot-separated octets, where an octet is one to three ASCII
digits whose decimal value is at most 255 and a three-digit octet does not
start with `'0'` (so two-digit leading zeros such as `"01"` are accepted
while `"001"` is rejected). -/
theorem is_valid_ip_characterization (s : String) :
    is_valid_ip s = amendedValidIp s := by
  unfold is_valid_ip amendedValidIp
  rw [all_octet_eq]

/-- C7: for every file-system state and path, `read_scanner_ip` returns
normally (it is a total function) and agrees with the spec contract
`readAddressSpec`: the stored `ScannerAddress` of `[Contents]` when the
file exists, is readable and parses, and the empty string whenever the
file is missing or unreadable, the parse raises, or the section or key is
absent. -/
theorem read_scanner_ip_never_raises (fs : FS) (p : String) :
    read_scanner_ip fs p = readAddressSpec fs p := by
  unfold read_scanner_ip readAddressSpec cfgRead
  cases hf : lookupFile fs p with
  | none => rfl
  | some e =>
    obtain ⟨d, r, w⟩ := e
    cases r with
    | false => cases d <;> rfl
    | true =>
      cases d with
      | corrupt ss => rfl
      | ini ss =>
        simp only []
        unfold optLookup
        cases hc : (mergeAll [] ss).lookup "Contents" with
        | none => simp [hc]
        | some opts =>
          cases hk : opts.lookup "ScannerAddress" with
          | none => simp [hc, hk, pyStripS_empty]
          | some v => simp [hc, hk]

/-- C8: the watcher loop runs its body exactly once per trace element until
the first iteration that observes the stop flag set, regardless of how many
iterations' polls fail (`watcher_step` is total, so permission, I/O and
unexpected errors are absorbed and the loop always proceeds); in
particular the loop exits only at a stop-flag check, never because of an
error. -/
theorem watcher_loop_absorbs_errors (s : WatchState) (trace : List WatchIn) :
    (watcher_run s trace).2 = (trace.takeWhile (fun i => !i.stop)).length := by
  induction trace generalizing s with
  | nil => rfl
  | cons i rest ih =>
    by_cases h : i.stop
    · simp [watcher_run, h, List.takeWhile_cons]
    · simp [watcher_run, h, List.takeWhile_cons, ih]

/-- C6: for every entered address that fails the validator, `save_ip`
surfaces a validation warning to the user and performs no state mutation:
the returned file system is exactly the input one (`write_scanner_ip` is
never reached). -/
theorem save_ip_invalid_no_mutation (fs : FS) (path a : String)
    (h : is_valid_ip a = false) : save_ip fs path a = (.invalidIp, fs) := by
  unfold save_ip
  rw [is_valid_ip_pyStripS, h]
  rfl

/-- Witness for C6 at a concrete malformed address. -/
theorem save_ip_invalid_no_mutation_witness :
    save_ip fsCfg "cfg.ini" "999.1.1.1" = (.invalidIp, fsCfg) :=
  save_ip_invalid_no_mutation fsCfg "cfg.ini" "999.1.1.1" (by decide)

/-- C1 (divergence at the failing input): with a remote preset file that
exists but is unreadable (permission denied) and a valid cache file,
`load_presets` returns the empty mapping — `configparser.read` swallows
the open error, so the fallback is skipped — whereas with the remote file
absent the same cache is consulted and returned. The claim says a
permission error on the remote must fall back to the cache, which is also
what the source's dead `except PermissionError` arm intends. -/
theorem load_presets_permission_fallback_bug :
    load_presets fsPermRemote "cachedir" "cache.ini" "remote.ini" = ([], fsPermRemote) ∧
    load_presets fsCacheOnly "cachedir" "cache.ini" "remote.ini" =
      ([("B", "5.6.7.8")], fsCacheOnly) :=
  ⟨rfl, rfl⟩

/-- C4: every address in the mapping `load_presets` returns validates
under `is_valid_ip`; moreover, for any section of the loaded preset source
(remote or cached), the section appears in the result with its stripped
address exactly when that address validates — an invalid entry (such as
`"999.1.1.1"`) is dropped without affecting its valid siblings, and the
load itself is a total function, so one bad entry never fails the whole
load. -/
theorem load_presets_filters_invalid (fs : FS) (cd cf r : String) :
    (∀ x ∈ (load_presets fs cd cf r).1, is_valid_ip x.2 = true) ∧
    (∀ sec opts, (sec, opts) ∈ (load_sections fs cd cf r).1 →
      (is_valid_ip (sectionIp opts) = true →
        (sec, sectionIp opts) ∈ (load_presets fs cd cf r).1) ∧
      (is_valid_ip (sectionIp opts) = false →
        sec ∉ ((load_presets fs cd cf r).1.map Prod.fst))) := by
  constructor
  · intro x hx
    unfold load_presets parsePresets at hx
    simp only [List.mem_filterMap] at hx
    obtain ⟨a, _, hfa⟩ := hx
    by_cases hv : is_valid_ip (sectionIp a.2) = true
    · rw [if_pos hv] at hfa
      cases hfa
      exact hv
    · rw [if_neg hv] at hfa
      cases hfa
  · intro sec opts hmem
    constructor
    · intro hv
      unfold load_presets parsePresets
      refine List.mem_filterMap.mpr ⟨(sec, opts), hmem, ?_⟩
      rw [if_pos hv]
    · intro hv hcontra
      obtain ⟨x, hx, hfst⟩ := List.mem_map.mp hcontra
      unfold load_presets parsePresets at hx
      simp only [List.mem_filterMap] at hx
      obtain ⟨a, ha, hfa⟩ := hx
      by_cases hva : is_valid_ip (sectionIp a.2) = true
      · rw [if_pos hva] at hfa
        cases hfa
        have hsec : a.1 = sec := hfst
        have hnd := load_sections_names_nodup fs cd cf r
        have hmem2 : (sec, a.2) ∈ (load_sections fs cd cf r).1 := by
          rw [← hsec]
          exact ha
        have heq : opts = a.2 := nodup_mem_eq _ sec opts a.2 hnd hmem hmem2
        rw [← heq] at hva
        rw [hva] at hv
        cases hv
      · rw [if_neg hva] at hfa
        cases hfa

/-- Witness for C4: a remote file with a valid section `A` and an invalid
sibling `B` (`"999.1.1.1"`): `A` is retained with its address and `B` is
excluded. -/
theorem load_presets_filters_invalid_witness :
    ("A", "1.2.3.4") ∈ (load_presets fsPresets "cachedir" "cache.ini" "remote.ini").1 ∧
    "B" ∉ ((load_presets fsPresets "cachedir" "cache.ini" "remote.ini").1.map Prod.fst) := by
  have h := load_presets_filters_invalid fsPresets "cachedir" "cache.ini" "remote.ini"
  constructor
  · exact (h.2 "A" [("ScannerAddress", "1.2.3.4")] (by decide)).1 (by decide)
  · exact (h.2 "B" [("ScannerAddress", "999.1.1.1")] (by decide)).2 (by decide)

/-- C9: `try_copy_remote_to_cache` returns `false` without raising when the
remote file is missing, when the cache directory cannot be created, when
the cache file is not writable, or when the remote cannot be opened for
reading — in each case leaving the file system unchanged; otherwise it
copies the remote bytes to the cache file and returns `true`. Its outcome
never influences the presets `load_presets` returns from a readable remote
file. -/
theorem try_copy_remote_to_cache_spec (fs : FS) (cd cf r : String) :
    (isfile fs r = false → try_copy_remote_to_cache fs cd cf r = (false, fs)) ∧
    (ensure_directory fs cd = false → try_copy_remote_to_cache fs cd cf r = (false, fs)) ∧
    (check_file_writable fs cf = false → try_copy_remote_to_cache fs cd cf r = (false, fs)) ∧
    (∀ e, lookupFile fs r = some e → e.readable = false →
      try_copy_remote_to_cache fs cd cf r = (false, fs)) ∧
    (∀ e, lookupFile fs r = some e → e.readable = true →
      ensure_directory fs cd = true → check_file_writable fs cf = true →
      (try_copy_remote_to_cache fs cd cf r).1 = true ∧
      dataAt (try_copy_remote_to_cache fs cd cf r).2 cf = some e.data) ∧
    (∀ e ss, lookupFile fs r = some e → e.data = FileData.ini ss → e.readable = true →
      (load_presets fs cd cf r).1 = parsePresets (mergeAll [] ss)) := by
  refine ⟨?_, ?_, ?_, ?_, ?_, ?_⟩
  · intro h
    unfold try_copy_remote_to_cache
    rw [h]
    rfl
  · intro h
    unfold try_copy_remote_to_cache
    rw [h]
    by_cases hr : isfile fs r <;> simp [hr]
  · intro h
    unfold try_copy_remote_to_cache
    rw [h]
    by_cases hr : isfile fs r <;> by_cases hd : ensure_directory fs cd <;> simp [hr, hd]
  · intro e he hre
    unfold try_copy_remote_to_cache
    have hr : isfile fs r = true := by simp [isfile, he]
    rw [hr, he]
    by_cases hd : ensure_directory fs cd <;>
      by_cases hw : check_file_writable fs cf <;> simp [hd, hw, hre]
  · intro e he hre hd hw
    have hr : isfile fs r = true := by simp [isfile, he]
    unfold try_copy_remote_to_cache
    rw [hr, hd, hw, he]
    simp only [Bool.not_true, Bool.false_eq_true, if_false, hre, if_true]
    cases hc : lookupFile fs cf with
    | none => simp [dataAt, setFile_lookup_self]
    | some ce => simp [dataAt, setFile_lookup_self]
  · intro e ss he hdata hre
    have hr : isfile fs r = true := by simp [isfile, he]
    unfold load_presets load_sections
    rw [hr]
    have hread : cfgRead [] fs r = (mergeAll [] ss, true) := by
      unfold cfgRead
      rw [he]
      simp [hre, hdata]
    rw [hread]
    rfl

/-- Witness for C9: the successful-copy conjunct at a concrete state. -/
theorem try_copy_remote_to_cache_spec_witness :
    (try_copy_remote_to_cache fsPresets "cachedir" "cache.ini" "remote.ini").1 = true ∧
    dataAt (try_copy_remote_to_cache fsPresets "cachedir" "cache.ini" "remote.ini").2
        "cache.ini" =
      some (FileData.ini
        [("A", [("ScannerAddress", "1.2.3.4")]),
         ("B", [("ScannerAddress", "999.1.1.1")])]) := by
  have h := (try_copy_remote_to_cache_spec fsPresets "cachedir" "cache.ini" "remote.ini").2.2.2.2.1
  exact h ⟨.ini [("A", [("ScannerAddress", "1.2.3.4")]),
              ("B", [("ScannerAddress", "999.1.1.1")])], true, true⟩
    rfl rfl rfl rfl

/-- C10: calling `write_scanner_ip` on a path with no existing file, whose
containing directory passes the access check and where creation succeeds,
creates a file holding only a `[Contents]` section with `ScannerAddress`
set to the given value — none of the default-payload fields
(`Authentication`, `Unit`, ...) are written — and a subsequent
`read_scanner_ip` returns that value (values are stored as the stripped
tokens the parser produces, so the given value is assumed trimmed). -/
theorem write_scanner_ip_creates_file (fs : FS) (p ip : String)
    (hnone : lookupFile fs p = none)
    (hacc : check_file_writable fs p = true)
    (hcc : fs.canCreate p = true)
    (htrim : pyStripS ip = ip) :
    write_scanner_ip fs p ip =
      .ok (setFile fs p ⟨.ini [("Contents", [("ScannerAddress", ip)])], true, true⟩) ∧
    read_scanner_ip
        (setFile fs p ⟨.ini [("Contents", [("ScannerAddress", ip)])], true, true⟩) p =
      ip := by
  constructor
  · unfold write_scanner_ip
    rw [if_neg (by rw [hacc] ; simp : ¬(!check_file_writable fs p) = true), hnone]
    rw [if_pos hcc]
  · rw [read_scanner_ip_ini_eq _ _ _ (setFile_lookup_self fs p _)]
    show pyStripS ((List.lookup "ScannerAddress" [("ScannerAddress", ip)]).getD "") = ip
    rw [lookup_cons]
    simp [htrim]

/-- Witness for C10 at a concrete empty file system and trimmed address. -/
theorem write_scanner_ip_creates_file_witness :
    write_scanner_ip fsEmpty "dir\\cfg.ini" "10.0.0.5" =
      .ok (setFile fsEmpty "dir\\cfg.ini"
        ⟨.ini [("Contents", [("ScannerAddress", "10.0.0.5")])], true, true⟩) ∧
    read_scanner_ip
        (setFile fsEmpty "dir\\cfg.ini"
          ⟨.ini [("Contents", [("ScannerAddress", "10.0.0.5")])], true, true⟩)
        "dir\\cfg.ini" =
      "10.0.0.5" :=
  write_scanner_ip_creates_file fsEmpty "dir\\cfg.ini" "10.0.0.5" rfl rfl rfl (by decide)

/-- C2: writing a valid IPv4 address string `A` (a dotted quad proper,
i.e. already trimmed — the validator also accepts whitespace-padded
inputs, but those are not themselves address strings and round-trip to
their trimmed form) to an existing, parseable, writable configuration
file and reading it back yields `A`, and every option of the file other
than `ScannerAddress` in `[Contents]` keeps exactly the value it had
before the write, in every section. -/
theorem write_then_read_roundtrip (fs : FS) (p A : String) (cfg0 : Sections)
    (hf : lookupFile fs p = some ⟨.ini cfg0, true, true⟩)
    (hnd : (cfg0.map Prod.fst).Nodup)
    (hA : is_valid_ip A = true)
    (hAt : pyStripS A = A) :
    ∃ fs', write_scanner_ip fs p A = .ok fs' ∧
      read_scanner_ip fs' p = A ∧
      ∀ sec k : String, ¬(sec = "Contents" ∧ k = "ScannerAddress") →
        optLookup (iniSectionsAt fs' p) sec k = optLookup cfg0 sec k := by
  have hcheck : check_file_writable fs p = true := by
    unfold check_file_writable
    rw [hf]
  have hread0 : cfgRead [] fs p = (cfg0, true) := by
    unfold cfgRead
    rw [hf]
    simp [mergeAll_nil cfg0 hnd]
  set cfg1 :=
    (if (cfg0.lookup "Contents").isSome then cfg0 else cfg0 ++ [("Contents", [])])
    with hcfg1
  set cfg2 :=
    cfg1.map (fun s =>
      if s.1 = "Contents" then ("Contents", setOpt s.2 "ScannerAddress" A) else s)
    with hcfg2
  have hwrite : write_scanner_ip fs p A = .ok (setFile fs p ⟨.ini cfg2, true, true⟩) := by
    unfold write_scanner_ip
    rw [if_neg (by rw [hcheck] ; simp : ¬(!check_file_writable fs p) = true), hf, hread0]
  obtain ⟨optsC, hoptsC, hoptsC0⟩ :
      ∃ optsC, cfg1.lookup "Contents" = some optsC ∧
        (cfg0.lookup "Contents" = some optsC ∨
          (cfg0.lookup "Contents" = none ∧ optsC = [])) := by
    by_cases h : (cfg0.lookup "Contents").isSome
    · obtain ⟨o, ho⟩ := Option.isSome_iff_exists.mp h
      exact ⟨o, by rw [hcfg1, if_pos h]; exact ho, Or.inl ho⟩
    · have hn : cfg0.lookup "Contents" = none := Option.not_isSome_iff_eq_none.mp h
      exact ⟨[], by rw [hcfg1, if_neg h]; exact lookup_append_right cfg0 _ _ hn,
        Or.inr ⟨hn, rfl⟩⟩
  have hc2 : cfg2.lookup "Contents" = some (setOpt optsC "ScannerAddress" A) := by
    have hmk := lookup_map_keyed cfg1 "Contents" (fun o => setOpt o "ScannerAddress" A)
    rw [hoptsC] at hmk
    exact hmk
  have hnd1 : (cfg1.map Prod.fst).Nodup := by
    by_cases h : (cfg0.lookup "Contents").isSome
    · rw [hcfg1, if_pos h]; exact hnd
    · rw [hcfg1, if_neg h]
      have hnm : "Contents" ∉ cfg0.map Prod.fst :=
        lookup_none_not_mem cfg0 "Contents" (Option.not_isSome_iff_eq_none.mp h)
      simp [List.nodup_append, hnd, hnm]
  have hnd2 : (cfg2.map Prod.fst).Nodup := by
    have hmk : cfg2.map Prod.fst = cfg1.map Prod.fst :=
      map_keyed_fst cfg1 "Contents" (fun o => setOpt o "ScannerAddress" A)
    rw [hmk]
    exact hnd1
  refine ⟨setFile fs p ⟨.ini cfg2, true, true⟩, hwrite, ?_, ?_⟩
  · rw [read_scanner_ip_ini_eq _ _ _ (setFile_lookup_self fs p _), mergeAll_nil cfg2 hnd2,
      hc2]
    show pyStripS (((setOpt optsC "ScannerAddress" A).lookup "ScannerAddress").getD "") = A
    rw [setOpt_lookup_self]
    exact hAt
  · intro sec k hnk
    have hsecs : iniSectionsAt (setFile fs p ⟨.ini cfg2, true, true⟩) p = cfg2 := by
      unfold iniSectionsAt dataAt
      rw [setFile_lookup_self]
      rfl
    rw [hsecs]
    unfold optLookup
    by_cases hsec : sec = "Contents"
    · subst hsec
      have hk : k ≠ "ScannerAddress" := fun hke => hnk ⟨rfl, hke⟩
      rw [hc2]
      rcases hoptsC0 with h0 | ⟨h0, hemp⟩
      · rw [h0]
        show (setOpt optsC "ScannerAddress" A).lookup k = optsC.lookup k
        exact setOpt_lookup_other optsC "ScannerAddress" k A hk
      · subst hemp
        rw [h0]
        show (setOpt [] "ScannerAddress" A).lookup k = none
        rw [setOpt_lookup_other [] "ScannerAddress" k A hk]
        rfl
    · have h2 : cfg2.lookup sec = cfg1.lookup sec :=
        lookup_map_keyed_other cfg1 "Contents" sec
          (fun o => setOpt o "ScannerAddress" A) hsec
      have h1 : cfg1.lookup sec = cfg0.lookup sec := by
        by_cases h : (cfg0.lookup "Contents").isSome
        · rw [hcfg1, if_pos h]
        · rw [hcfg1, if_neg h]
          exact lookup_append_other cfg0 "Contents" sec [] hsec
      rw [h2, h1]

/-- Witness for C2 at a concrete file with unrelated keys `Unit` and
`Authentication/UserName`. -/
theorem write_then_read_roundtrip_witness :
    ∃ fs', write_scanner_ip fsCfg "cfg.ini" "10.0.0.1" = .ok fs' ∧
      read_scanner_ip fs' "cfg.ini" = "10.0.0.1" ∧
      ∀ sec k : String, ¬(sec = "Contents" ∧ k = "ScannerAddress") →
        optLookup (iniSectionsAt fs' "cfg.ini") sec k =
          optLookup
            [("Contents", [("Unit", "0"), ("ScannerAddress", "1.1.1.1")]),
             ("Authentication", [("UserName", "bob")])] sec k :=
  write_then_read_roundtrip fsCfg "cfg.ini" "10.0.0.1"
    [("Contents", [("Unit", "0"), ("ScannerAddress", "1.1.1.1")]),
     ("Authentication", [("UserName", "bob")])]
    rfl (by decide) (by decide) (by decide)

/-- C5: `resolve_kyocera_path` works through its tiers in order — an
existing file at the primary location or its `.ini` sibling is returned
as-is, and otherwise each tier independently tries to create a
default-payload file. When only the temp tier succeeds, resolution
succeeds there, reading the fresh file yields the default placeholder
address `192.168.1.1`, and the startup check flags degraded mode for that
path. When every tier fails the resolution fails with an error
(`RuntimeError` in the source, the `ConfigUnavailable` of the spec), the
caller falls back to the `":memory:"` marker with the critical-error flag
set instead of crashing, and saving in that mode is a user-visible no-op
that leaves the file system untouched. -/
theorem resolve_kyocera_path_tiers (fs : FS) (base fbDir fbPath tempDir : String) :
    (isfile fs base = true →
      resolve_kyocera_path fs base fbDir fbPath tempDir = .ok (base, fs)) ∧
    (isfile fs base = false → isfile fs (base ++ ".ini") = false →
      (dirname base = "" ∨ ensure_directory fs (dirname base) = false ∨
        fs.canCreate base = false) →
      isfile fs fbPath = false → fs.canCreate fbPath = false →
      isfile fs (joinPath tempDir "KyoceraScanSelector_KM_TWAIN.ini") = false →
      fs.canCreate (joinPath tempDir "KyoceraScanSelector_KM_TWAIN.ini") = true →
      resolve_kyocera_path fs base fbDir fbPath tempDir =
        .ok (joinPath tempDir "KyoceraScanSelector_KM_TWAIN.ini",
          writeDefault fs (joinPath tempDir "KyoceraScanSelector_KM_TWAIN.ini")) ∧
      read_scanner_ip
          (writeDefault fs (joinPath tempDir "KyoceraScanSelector_KM_TWAIN.ini"))
          (joinPath tempDir "KyoceraScanSelector_KM_TWAIN.ini") = "192.168.1.1" ∧
      init_config_mode fs base fbDir fbPath tempDir =
        (joinPath tempDir "KyoceraScanSelector_KM_TWAIN.ini", true)) ∧
    (isfile fs base = false → isfile fs (base ++ ".ini") = false →
      (dirname base = "" ∨ ensure_directory fs (dirname base) = false ∨
        fs.canCreate base = false) →
      isfile fs fbPath = false → fs.canCreate fbPath = false →
      isfile fs (joinPath tempDir "KyoceraScanSelector_KM_TWAIN.ini") = false →
      fs.canCreate (joinPath tempDir "KyoceraScanSelector_KM_TWAIN.ini") = false →
      resolve_kyocera_path fs base fbDir fbPath tempDir = .error () ∧
      init_config_mode fs base fbDir fbPath tempDir = (":memory:", true) ∧
      ∀ (fs0 : FS) (a : String), is_valid_ip a = true →
        save_ip fs0 ":memory:" a = (.readOnlyMode, fs0)) := by
  have htier1 : ∀ h3 : dirname base = "" ∨ ensure_directory fs (dirname base) = false ∨
      fs.canCreate base = false,
      (decide (dirname base ≠ "") && ensure_directory fs (dirname base) &&
        fs.canCreate base) = false := by
    intro h3
    rcases h3 with h | h | h <;> simp [h]
  refine ⟨?_, ?_, ?_⟩
  · intro h
    unfold resolve_kyocera_path
    rw [if_pos h]
  · intro h1 h2 h3 h4 h5 h6 h7
    have hres : resolve_kyocera_path fs base fbDir fbPath tempDir =
        .ok (joinPath tempDir "KyoceraScanSelector_KM_TWAIN.ini",
          writeDefault fs (joinPath tempDir "KyoceraScanSelector_KM_TWAIN.ini")) := by
      unfold resolve_kyocera_path
      rw [if_neg (by rw [h1] ; simp), if_neg (by rw [h2] ; simp),
        if_neg (by rw [htier1 h3] ; simp), if_neg (by rw [h4] ; simp),
        if_neg (by rw [h5] ; simp), if_neg (by rw [h6] ; simp), if_pos h7]
    refine ⟨hres, ?_, ?_⟩
    · unfold writeDefault
      rw [read_scanner_ip_ini_eq _ _ default_config_sections
        (setFile_lookup_self fs _ _)]
      rfl
    · unfold init_config_mode
      rw [hres]
      show (joinPath tempDir "KyoceraScanSelector_KM_TWAIN.ini",
          degraded_detect (joinPath tempDir "KyoceraScanSelector_KM_TWAIN.ini")) =
        (joinPath tempDir "KyoceraScanSelector_KM_TWAIN.ini", true)
      rw [degraded_detect_tempPath]
  · intro h1 h2 h3 h4 h5 h6 h7
    have hres : resolve_kyocera_path fs base fbDir fbPath tempDir = .error () := by
      unfold resolve_kyocera_path
      rw [if_neg (by rw [h1] ; simp), if_neg (by rw [h2] ; simp),
        if_neg (by rw [htier1 h3] ; simp), if_neg (by rw [h4] ; simp),
        if_neg (by rw [h5] ; simp), if_neg (by rw [h6] ; simp),
        if_neg (by rw [h7] ; simp)]
    refine ⟨hres, ?_, ?_⟩
    · unfold init_config_mode
      rw [hres]
    · intro fs0 a ha
      unfold save_ip
      rw [if_neg (by rw [is_valid_ip_pyStripS, ha] ; simp)]
      rw [if_pos (by decide)]

/-- Witness for C5: a state where nothing exists, no directory can be
created, and only the temp-directory file can be created. -/
theorem resolve_kyocera_path_tiers_witness :
    resolve_kyocera_path fsTempOnly "B\\KM_TWAIN" "F" "F\\KM_TWAIN.ini" "T" =
      .ok ("T\\KyoceraScanSelector_KM_TWAIN.ini",
        writeDefault fsTempOnly "T\\KyoceraScanSelector_KM_TWAIN.ini") ∧
    read_scanner_ip (writeDefault fsTempOnly "T\\KyoceraScanSelector_KM_TWAIN.ini")
        "T\\KyoceraScanSelector_KM_TWAIN.ini" = "192.168.1.1" ∧
    init_config_mode fsTempOnly "B\\KM_TWAIN" "F" "F\\KM_TWAIN.ini" "T" =
      ("T\\KyoceraScanSelector_KM_TWAIN.ini", true) :=
  (resolve_kyocera_path_tiers fsTempOnly "B\\KM_TWAIN" "F" "F\\KM_TWAIN.ini" "T").2.1
    rfl rfl (Or.inr (Or.inl rfl)) rfl (by decide) rfl (by decide)
